import Mathlib

/-!
Verification development for the dockge compose-stack orchestration layer
(backend/stack.ts). JavaScript strings are embedded as lists of characters,
and the JavaScript string operations used by the source (split, trim,
startsWith, includes, parseInt) are given explicit executable models.
External effects (spawned docker processes, the file system, the terminal
layer) are embedded by passing their observable results as parameters and
by recording the performed actions in an explicit trace.
-/

namespace Dockge

/-- A JavaScript string, embedded as a list of characters. -/
abbrev JStr := List Char

/-- Embed a Lean string literal as a JStr. -/
def js (s : String) : JStr := s.data

/-- Whitespace test used by the models of String.prototype.trim and parseInt
(the common ASCII whitespace characters). -/
def isJsSpace (c : Char) : Bool :=
  c = ' ' || c = '\t' || c = '\n' || c = '\r'

/-- Model of s.trim(): remove leading and trailing whitespace. -/
def jsTrim (s : JStr) : JStr :=
  ((s.dropWhile isJsSpace).reverse.dropWhile isJsSpace).reverse

/-- Model of s.startsWith(p): p is a prefix of s. -/
def jsStartsWith (p s : JStr) : Bool := p.isPrefixOf s

/-- Model of s.includes(needle): needle occurs contiguously in s, that is,
needle is a prefix of some suffix of s. -/
def jsIncludes (needle : JStr) : JStr → Bool
  | [] => needle.isPrefixOf []
  | c :: rest => needle.isPrefixOf (c :: rest) || jsIncludes needle rest

/-- Model of s.split(sep) for a single-character separator: the list of
chunks between occurrences of sep. On the empty string it returns one empty
chunk, as in JavaScript. -/
def jsSplit (sep : Char) : JStr → List JStr
  | [] => [[]]
  | c :: rest =>
    let r := jsSplit sep rest
    if c = sep then [] :: r
    else (c :: r.headD []) :: r.tail

/-- Digit run parser used by the parseInt model: value of the leading run of
decimal digits, or none when the run is empty (parseInt would yield NaN). -/
def parseDigits (s : JStr) : Option Nat :=
  let ds := s.takeWhile (fun c => c.isDigit)
  if ds = [] then none
  else some (ds.foldl (fun acc c => acc * 10 + (c.toNat - '0'.toNat)) 0)

/-- Model of parseInt(s) with radix 10: skip leading whitespace, accept an
optional sign, then parse a leading run of decimal digits; none models NaN. -/
def jsParseInt (s : JStr) : Option Int :=
  match s.dropWhile isJsSpace with
  | '-' :: rest => (parseDigits rest).map (fun n => -(n : Int))
  | '+' :: rest => (parseDigits rest).map (fun n => (n : Int))
  | t => (parseDigits t).map (fun n => (n : Int))

/-- Modelled from the spec: the status code Unknown, from common/util-common
which is not under src. The five codes are distinct numbers. -/
def UNKNOWN : Nat := 0

/-- Modelled from the spec: the status code CreatedFromFile (CREATED_FILE). -/
def CREATED_FILE : Nat := 1

/-- Modelled from the spec: the status code CreatedAsProject (CREATED_STACK). -/
def CREATED_STACK : Nat := 2

/-- Modelled from the spec: the status code Running (RUNNING). -/
def RUNNING : Nat := 3

/-- Modelled from the spec: the status code Exited (EXITED). -/
def EXITED : Nat := 4

/-- The fields of the docker compose ls record used by the status
classification (the source interface StackJson also carries ConfigFiles,
which the classifier does not read). -/
structure StackJson where
  Name : JStr
  Status : JStr
deriving DecidableEq

/-- The field of the docker ps record used by the status classification
(the source interface ContainerJson carries many more fields; only Status
is read by isComposeExitClean). -/
structure ContainerJson where
  Status : JStr
deriving DecidableEq

/-- The error raised when JavaScript evaluates a method on undefined; this
happens in isComposeExitClean when the aggregate status has no parenthesized
suffix, because Status.split on the open parenthesis then has no element 1. -/
inductive JsError where
  | typeError
deriving DecidableEq

/-- The for-loop of isComposeExitClean over the per-container records: none
models the early return EXITED (a container whose trimmed status starts with
the word exited but not with the clean form exited (0)); some n models loop
completion with n clean code-0 exits counted on top of the accumulator. -/
def isComposeExitCleanLoop : List ContainerJson → Nat → Option Nat
  | [], acc => some acc
  | containerStatus :: rest, acc =>
    let status := jsTrim containerStatus.Status
    if jsStartsWith (js "exited") status then
      if jsStartsWith (js "exited (0)") status then
        isComposeExitCleanLoop rest (acc + 1)
      else none
    else isComposeExitCleanLoop rest acc

/-- Stack.isComposeExitClean. The awaited result of getSingleComposeStatus
(a spawned docker ps) is passed as the composeStatus parameter: none models
the null result, some l the parsed container records. The expected exited
count is parsed from the aggregate status exactly as the source does, by
splitting on the parentheses and applying parseInt. -/
def isComposeExitClean (composeStack : StackJson)
    (composeStatus : Option (List ContainerJson)) : Except JsError Nat :=
  match (jsSplit '(' composeStack.Status)[1]? with
  | none => .error .typeError
  | some afterParen =>
    let expectedContainersExited : Option Int :=
      jsParseInt ((jsSplit ')' afterParen).headD [])
    match composeStatus with
    | none => .ok EXITED
    | some list =>
      match isComposeExitCleanLoop list 0 with
      | none => .ok EXITED
      | some cleanlyExitedContainerCount =>
        .ok (if expectedContainersExited =
              some (cleanlyExitedContainerCount : Int)
            then RUNNING else EXITED)

/-- Stack.statusConvert: created has priority, then the exited
reconciliation (triggered by mere containment of the word exited), then
running, then unknown. -/
def statusConvert (composeStack : StackJson)
    (composeStatus : Option (List ContainerJson)) : Except JsError Nat :=
  if jsStartsWith (js "created") composeStack.Status then .ok CREATED_STACK
  else if jsIncludes (js "exited") composeStack.Status then
    isComposeExitClean composeStack composeStatus
  else if jsStartsWith (js "running") composeStack.Status then .ok RUNNING
  else .ok UNKNOWN

/-- A container record whose trimmed status starts with the word exited but
not with the clean form exited (0); in the source loop such a record causes
the immediate EXITED classification. -/
def dirtyExit (c : ContainerJson) : Bool :=
  jsStartsWith (js "exited") (jsTrim c.Status) &&
    !jsStartsWith (js "exited (0)") (jsTrim c.Status)

/-- A container record whose trimmed status starts with exited (0): a clean
code-0 exit as counted by the source loop. -/
def cleanExit (c : ContainerJson) : Bool :=
  jsStartsWith (js "exited (0)") (jsTrim c.Status)

/-- Number of cleanly exited containers in a per-container list. -/
def cleanExitCount (l : List ContainerJson) : Nat :=
  (l.filter cleanExit).length

/-- The state of a Stack object relevant to the embedded operations: the
project name, the server stacks directory, the three cached artifact
contents, and the discovered artifact filenames. -/
structure Stack where
  name : JStr
  stacksDir : JStr
  composeYAML : JStr
  composeENV : JStr
  composeOverrideYAML : JStr
  composeFileName : JStr := js "compose.yaml"
  composeOverrideFileName : JStr := js "compose.override.yaml"
deriving DecidableEq

/-- Model of path.join for the two-segment joins the source performs,
valid for segments without trailing or leading separators. -/
def pathJoin (a b : JStr) : JStr := a ++ js "/" ++ b

/-- The path getter: stacks directory joined with the project name. -/
def Stack.path (s : Stack) : JStr := pathJoin s.stacksDir s.name

/-- Modelled from the spec: getComposeTerminalName lives in
common/util-common, which is not under src. The spec says the session name
is a deterministic function of the operation family, the remote-endpoint
identifier and the project name; the compose-operation family is modelled
as the compose- tag followed by endpoint and project name. -/
def getComposeTerminalName (endpoint stackName : JStr) : JStr :=
  js "compose-" ++ endpoint ++ js "-" ++ stackName

/-- Stack.getErrorMessage: the message of the error thrown when an
orchestrated command exits non-zero. -/
def getErrorMessage (actionDescription : JStr) : JStr :=
  js "Failed to " ++ actionDescription ++
    js ", please check the terminal output for more information."

/-- One spawned terminal command: the session name it runs under, the
program, its argument vector and its working directory. -/
structure ExecCall where
  terminalName : JStr
  command : JStr
  args : List JStr
  cwd : JStr
deriving DecidableEq

/-- An observable action performed by an operation: a terminal command, a
recursive directory removal, a directory creation, or a file write. -/
inductive Action where
  | exec (call : ExecCall)
  | rm (p : JStr)
  | mkdir (p : JStr)
  | writeFile (p : JStr) (content : JStr)
deriving DecidableEq

/-- Stack.getComposeOptions: the base vector is compose, the command, then
the extra options; when global.env exists in the stacks directory the pair
--env-file ../global.env is spliced in at index 1, and when additionally the
project-local .env exists the pair --env-file ./.env is spliced in at index
1 in front of it. The two existsSync results are passed as parameters. -/
def getComposeOptions (globalEnvExists localEnvExists : Bool)
    (command : JStr) (extraOptions : List JStr) : List JStr :=
  let options := js "compose" :: command :: extraOptions
  if globalEnvExists then
    let options := options.take 1 ++
      [js "--env-file", js "../global.env"] ++ options.drop 1
    if localEnvExists then
      options.take 1 ++ [js "--env-file", js "./.env"] ++ options.drop 1
    else options
  else options

/-- Stack.runTerminalExec. Modelled from the spec: Terminal.exec (the
terminal layer is not under src) runs the command in a Progress session
bound to the compose terminal name, with working directory the stack path,
and yields the process exit code, which is passed here as a parameter. A
non-zero exit code makes the operation throw the command-failure error; the
issued call is returned alongside the outcome. -/
def runTerminalExec (s : Stack) (endpoint : JStr) (command : JStr)
    (args : List JStr) (actionDescription : JStr) (exitCode : Nat) :
    ExecCall × Except JStr Nat :=
  (⟨getComposeTerminalName endpoint s.name, command, args, s.path⟩,
    if exitCode ≠ 0 then .error (getErrorMessage actionDescription)
    else .ok exitCode)

/-- Stack.runComposeCommand: build the full compose argument vector and run
it through runTerminalExec with the docker program. -/
def runComposeCommand (s : Stack) (endpoint : JStr)
    (globalEnvExists localEnvExists : Bool) (command : JStr)
    (args : List JStr) (actionDescription : JStr) (exitCode : Nat) :
    ExecCall × Except JStr Nat :=
  runTerminalExec s endpoint (js "docker")
    (getComposeOptions globalEnvExists localEnvExists command args)
    actionDescription exitCode

/-- Stack.deploy: run compose up -d --remove-orphans under the action
description deploy. -/
def deploy (s : Stack) (endpoint : JStr)
    (globalEnvExists localEnvExists : Bool) (exitCode : Nat) :
    ExecCall × Except JStr Nat :=
  runComposeCommand s endpoint globalEnvExists localEnvExists (js "up")
    [js "-d", js "--remove-orphans"] (js "deploy") exitCode

/-- Stack.update: pull, then refresh the status (the refreshed status, the
result of the external docker compose ls pass, is passed as a parameter),
and only if it is RUNNING recreate the containers and prune images. Each
step's exit code is a parameter; a non-zero step throws, ending the
sequence. The list of issued calls is returned as a trace: completed steps
stay in the trace when a later step fails (no rollback). -/
def update (s : Stack) (endpoint : JStr)
    (globalEnvExists localEnvExists : Bool) (pullExitCode : Nat)
    (refreshedStatus : Nat) (upExitCode pruneExitCode : Nat) :
    List ExecCall × Except JStr Nat :=
  let pull := runComposeCommand s endpoint globalEnvExists localEnvExists
    (js "pull") [] (js "pull") pullExitCode
  match pull.2 with
  | .error e => ([pull.1], .error e)
  | .ok exitCode =>
    if refreshedStatus = RUNNING then
      let up := runComposeCommand s endpoint globalEnvExists localEnvExists
        (js "up") [js "-d", js "--remove-orphans"] (js "restart") upExitCode
      match up.2 with
      | .error e => ([pull.1, up.1], .error e)
      | .ok _ =>
        let prune := runTerminalExec s endpoint (js "docker")
          [js "image", js "prune", js "--all", js "--force"]
          (js "prune images") pruneExitCode
        match prune.2 with
        | .error e => ([pull.1, up.1, prune.1], .error e)
        | .ok c => ([pull.1, up.1, prune.1], .ok c)
    else ([pull.1], .ok exitCode)

/-- Stack.delete: run compose down --remove-orphans; on success, remove the
stack directory recursively only when the deleteStackFiles option is set.
The trace records the issued command and any removal, in order. -/
def Stack.del (s : Stack) (endpoint : JStr)
    (globalEnvExists localEnvExists : Bool) (deleteStackFiles : Bool)
    (exitCode : Nat) : List Action × Except JStr Nat :=
  let down := runComposeCommand s endpoint globalEnvExists localEnvExists
    (js "down") [js "--remove-orphans"] (js "delete " ++ s.name) exitCode
  match down.2 with
  | .error e => ([.exec down.1], .error e)
  | .ok code =>
    if deleteStackFiles then ([.exec down.1, .rm s.path], .ok code)
    else ([.exec down.1], .ok code)

/-- Stack.forceDelete: run compose down -v --remove-orphans through
Terminal.exec directly; throw on a non-zero exit, otherwise remove the
stack directory recursively and return the exit code. -/
def forceDelete (s : Stack) (endpoint : JStr)
    (globalEnvExists localEnvExists : Bool) (exitCode : Nat) :
    List Action × Except JStr Nat :=
  let call : ExecCall :=
    ⟨getComposeTerminalName endpoint s.name, js "docker",
      getComposeOptions globalEnvExists localEnvExists (js "down")
        [js "-v", js "--remove-orphans"], s.path⟩
  if exitCode ≠ 0 then
    ([.exec call], .error (getErrorMessage (js "force delete " ++ s.name)))
  else ([.exec call, .rm s.path], .ok exitCode)

/-- The character class of the stack-name pattern: lowercase letters,
digits, underscore and hyphen. -/
def isStackNameChar (c : Char) : Bool :=
  ('a' ≤ c && c ≤ 'z') || ('0' ≤ c && c ≤ '9') || c = '_' || c = '-'

/-- Model of name.match against the anchored stack-name pattern: at least
one character, all from the allowed class. -/
def nameMatchesPattern (name : JStr) : Bool :=
  !name.isEmpty && name.all isStackNameChar

/-- The validation-failure channel of the save path: the explicit
ValidationError thrown by the source, or the error thrown by the yaml
parser on malformed compose definitions. -/
inductive StackError where
  | validationError (msg : JStr)
  | yamlParseError
deriving DecidableEq

/-- Stack.validateEnvFormat: split the environment content on newlines and
reject exactly a single non-empty line without an equals sign. -/
def validateEnvFormat (s : Stack) : Except StackError Unit :=
  let lines := jsSplit '\n' s.composeENV
  if lines.length = 1 ∧ jsIncludes (js "=") (lines.headD []) = false ∧
      (lines.headD []).length > 0
  then .error (.validationError (js "Invalid .env format"))
  else .ok ()

/-- Stack.validate: check the name pattern, parse the primary compose
definition, parse the override when it is present and not blank, then check
the environment-file shape. The yaml parser is embedded as the parseOk
predicate (true when yaml.parse succeeds on the given content). -/
def validate (s : Stack) (parseOk : JStr → Bool) : Except StackError Unit :=
  if nameMatchesPattern s.name = false then
    .error (.validationError
      (js "Stack name can only contain [a-z][0-9] _ - only"))
  else if parseOk s.composeYAML = false then .error .yamlParseError
  else if jsTrim s.composeOverrideYAML ≠ [] ∧
      parseOk s.composeOverrideYAML = false then .error .yamlParseError
  else validateEnvFormat s

/-- The file-content cache of a Stack: an association list from cache keys
to cached contents. -/
abbrev Cache := List (String × JStr)

/-- Lookup in the file-content cache (Map.get / Map.has). -/
def cacheGet (c : Cache) (k : String) : Option JStr :=
  (c.find? (fun p => p.1 = k)).map (fun p => p.2)

/-- Insertion into the file-content cache (Map.set). -/
def cacheSet (c : Cache) (k : String) (v : JStr) : Cache :=
  (k, v) :: c.filter (fun p => p.1 ≠ k)

/-- Stack.getFileContent: when the key is not cached, attempt the file read
(its outcome is the readResult parameter, none modelling a thrown read
error) and cache the value read or the default; then return the cached
value. The returned pair is the value and the updated cache. -/
def getFileContent (cache : Cache) (cacheKey : String)
    (readResult : Option JStr) (defaultValue : JStr) : JStr × Cache :=
  match cacheGet cache cacheKey with
  | some v => (v, cache)
  | none =>
    let v := readResult.getD defaultValue
    (v, cacheSet cache cacheKey v)

/-- The composeYAML accessor: getFileContent under the compose key with the
empty-string default. -/
def composeYAMLContent (cache : Cache) (readResult : Option JStr) :
    JStr × Cache :=
  getFileContent cache "compose" readResult []

/-- The composeENV accessor: getFileContent under the env key with the
empty-string default. -/
def composeENVContent (cache : Cache) (readResult : Option JStr) :
    JStr × Cache :=
  getFileContent cache "env" readResult []

/-- The composeOverrideYAML accessor: getFileContent under the override key
with the empty-string default. -/
def composeOverrideYAMLContent (cache : Cache) (readResult : Option JStr) :
    JStr × Cache :=
  getFileContent cache "override" readResult []

/-- The writes performed by Stack.writeStackFiles: the primary definition
unconditionally, the environment file when it already exists or its content
is not blank, and the override file under the same rule. The two existence
checks are passed as parameters. -/
def writeStackFilesActions (s : Stack)
    (envFileExists overrideFileExists : Bool) : List Action :=
  [Action.writeFile (pathJoin s.path s.composeFileName) s.composeYAML] ++
  (if envFileExists ∨ jsTrim s.composeENV ≠ [] then
    [Action.writeFile (pathJoin s.path (js ".env")) s.composeENV]
  else []) ++
  (if overrideFileExists ∨ jsTrim s.composeOverrideYAML ≠ [] then
    [Action.writeFile (pathJoin s.path s.composeOverrideFileName)
      s.composeOverrideYAML]
  else [])

/-- Stack.writeStackFiles: perform the writes and clear the file-content
cache. -/
def writeStackFiles (s : Stack) (_cache : Cache)
    (envFileExists overrideFileExists : Bool) : List Action × Cache :=
  (writeStackFilesActions s envFileExists overrideFileExists, [])

/-- Stack.save: validate first; then for an addition fail when the stack
directory already exists and create it otherwise, and for an update fail
when the directory is missing; finally write the stack files. The directory
existence check and the two file existence checks are parameters. A
validation failure produces an empty action trace. -/
def save (s : Stack) (parseOk : JStr → Bool) (isAdd : Bool)
    (dirExists envFileExists overrideFileExists : Bool) :
    List Action × Except StackError Unit :=
  match validate s parseOk with
  | .error e => ([], .error e)
  | .ok _ =>
    if isAdd then
      if dirExists then
        ([], .error (.validationError (js "Stack name already exists")))
      else
        (Action.mkdir s.path ::
          writeStackFilesActions s envFileExists overrideFileExists, .ok ())
    else
      if !dirExists then
        ([], .error (.validationError (js "Stack not found")))
      else
        (writeStackFilesActions s envFileExists overrideFileExists, .ok ())

/-- Stack.findComposeFileName: the first accepted filename that exists in
the project directory, or compose.yaml when none does. The accepted list
and the per-filename existence check are parameters (the accepted names
live in common/util-common, which is not under src). -/
def findComposeFileName (accepted : List JStr)
    (existsInDir : JStr → Bool) : JStr :=
  match accepted with
  | [] => js "compose.yaml"
  | f :: rest =>
    if existsInDir f then f else findComposeFileName rest existsInDir

/-- Stack.findComposeOverrideFileName: the first accepted override filename
that exists in the project directory, or compose.override.yaml when none
does. -/
def findComposeOverrideFileName (accepted : List JStr)
    (existsInDir : JStr → Bool) : JStr :=
  match accepted with
  | [] => js "compose.override.yaml"
  | f :: rest =>
    if existsInDir f then f else findComposeOverrideFileName rest existsInDir

/-- A convenience constructor for concrete stacks with the default artifact
filenames. -/
def mkStack (name stacksDir composeYAML composeENV composeOverrideYAML :
    JStr) : Stack :=
  ⟨name, stacksDir, composeYAML, composeENV, composeOverrideYAML,
    js "compose.yaml", js "compose.override.yaml"⟩

/-- The result of jsSplit is never the empty list. -/
theorem jsSplit_ne_nil (sep : Char) (l : JStr) : jsSplit sep l ≠ [] := by
  cases l with
  | nil => simp [jsSplit]
  | cons c rest =>
    simp only [jsSplit]
    split <;> simp

/-- Splitting a string that does not contain the separator yields the one
chunk equal to the whole string. -/
theorem jsSplit_of_not_mem {sep : Char} {l : JStr} (h : sep ∉ l) :
    jsSplit sep l = [l] := by
  induction l with
  | nil => rfl
  | cons c rest ih =>
    have hc : ¬ c = sep := by
      rintro rfl
      exact h (List.mem_cons_self _ _)
    have hr : sep ∉ rest := fun hm => h (List.mem_cons_of_mem _ hm)
    simp [jsSplit, hc, ih hr]

/-- Splitting a string that contains the separator yields at least two
chunks. -/
theorem two_le_length_jsSplit {sep : Char} {l : JStr} (h : sep ∈ l) :
    2 ≤ (jsSplit sep l).length := by
  induction l with
  | nil => cases h
  | cons c rest ih =>
    by_cases hc : c = sep
    · subst hc
      have hlen : 0 < (jsSplit c rest).length :=
        List.length_pos.mpr (jsSplit_ne_nil c rest)
      simp [jsSplit]
      omega
    · have hm : sep ∈ rest := by
        rcases List.mem_cons.mp h with h' | h'
        · exact absurd h'.symm hc
        · exact h'
      have hlen := ih hm
      simp only [jsSplit, if_neg hc, List.length_cons, List.length_tail]
      omega

/-- The split of a string has exactly one chunk exactly when the string does
not contain the separator. -/
theorem jsSplit_length_eq_one_iff {sep : Char} {l : JStr} :
    (jsSplit sep l).length = 1 ↔ sep ∉ l := by
  constructor
  · intro h hm
    have := two_le_length_jsSplit hm
    omega
  · intro h
    rw [jsSplit_of_not_mem h]
    rfl

/-- Containment of a one-character needle is membership of the character. -/
theorem jsIncludes_singleton {a : Char} {l : JStr} :
    jsIncludes [a] l = true ↔ a ∈ l := by
  induction l with
  | nil => simp [jsIncludes, List.isPrefixOf]
  | cons c rest ih =>
    simp [jsIncludes, List.isPrefixOf, ih, List.mem_cons]

/-- Characterization of the env-format rejection: exactly the contents with
no newline, at least one character, and no equals sign are rejected, always
with the fixed invalid-format message. -/
theorem validateEnvFormat_error_iff (s : Stack) :
    (∃ e, validateEnvFormat s = .error e) ↔
      ('\n' ∉ s.composeENV ∧ s.composeENV ≠ [] ∧ '=' ∉ s.composeENV) := by
  by_cases hmem : '\n' ∈ s.composeENV
  · have hlen : (jsSplit '\n' s.composeENV).length ≠ 1 := by
      have := two_le_length_jsSplit hmem
      omega
    have hneg : ¬((jsSplit '\n' s.composeENV).length = 1 ∧
        jsIncludes (js "=") ((jsSplit '\n' s.composeENV).headD []) = false ∧
        ((jsSplit '\n' s.composeENV).headD []).length > 0) :=
      fun hcon => hlen hcon.1
    simp only [validateEnvFormat]
    rw [if_neg hneg]
    simp [hmem]
  · have hs : jsSplit '\n' s.composeENV = [s.composeENV] :=
      jsSplit_of_not_mem hmem
    simp only [validateEnvFormat, hs]
    by_cases heq : '=' ∈ s.composeENV
    · have htrue : jsIncludes (js "=") ([s.composeENV].headD []) = true :=
        jsIncludes_singleton.mpr heq
      have hneg : ¬([s.composeENV].length = 1 ∧
          jsIncludes (js "=") ([s.composeENV].headD []) = false ∧
          ([s.composeENV].headD []).length > 0) :=
        fun hcon => by rw [htrue] at hcon; exact absurd hcon.2.1 (by simp)
      rw [if_neg hneg]
      simp [heq]
    · have hfalse : jsIncludes (js "=") ([s.composeENV].headD []) = false := by
        rw [← Bool.not_eq_true]
        exact fun hcon => heq (jsIncludes_singleton.mp hcon)
      by_cases hnil : s.composeENV = []
      · have hneg : ¬([s.composeENV].length = 1 ∧
            jsIncludes (js "=") ([s.composeENV].headD []) = false ∧
            ([s.composeENV].headD []).length > 0) := by
          intro hcon
          have := hcon.2.2
          simp [List.headD, hnil] at this
        rw [if_neg hneg]
        simp [hnil]
      · have hpos : ([s.composeENV].headD []).length > 0 := by
          simpa [List.headD, List.length_pos] using hnil
        rw [if_pos ⟨rfl, hfalse, hpos⟩]
        simp [hmem, hnil, heq]

/-- If the env content has a newline, the env validation passes. -/
theorem validateEnvFormat_ok_of_newline {s : Stack}
    (h : '\n' ∈ s.composeENV) : validateEnvFormat s = .ok () := by
  rcases hv : validateEnvFormat s with e | u
  · exact absurd ((validateEnvFormat_error_iff s).mp ⟨e, hv⟩).1
      (by simp [h])
  · rfl

/-- A status with the clean exited (0) prefix in particular has the bare
exited prefix. -/
theorem exited_of_cleanExit {c : ContainerJson} (h : cleanExit c = true) :
    jsStartsWith (js "exited") (jsTrim c.Status) = true := by
  have h' : (js "exited (0)").isPrefixOf (jsTrim c.Status) = true := h
  have hpq : (js "exited") <+: (js "exited (0)") := by
    rw [← List.isPrefixOf_iff_prefix]
    decide
  show (js "exited").isPrefixOf (jsTrim c.Status) = true
  rw [List.isPrefixOf_iff_prefix] at h' ⊢
  exact hpq.trans h'

/-- When no container is a dirty exit, the classification loop completes,
adding the number of clean code-0 exits to its accumulator. -/
theorem isComposeExitCleanLoop_of_no_dirty :
    ∀ (l : List ContainerJson) (acc : Nat),
      (∀ c ∈ l, dirtyExit c = false) →
      isComposeExitCleanLoop l acc = some (acc + cleanExitCount l)
  | [], acc, _ => by simp [isComposeExitCleanLoop, cleanExitCount]
  | c :: rest, acc, h => by
    have hc : (jsStartsWith (js "exited") (jsTrim c.Status) &&
        !jsStartsWith (js "exited (0)") (jsTrim c.Status)) = false :=
      h c (List.mem_cons_self _ _)
    have hrest : ∀ x ∈ rest, dirtyExit x = false :=
      fun x hx => h x (List.mem_cons_of_mem _ hx)
    have hrec1 := isComposeExitCleanLoop_of_no_dirty rest (acc + 1) hrest
    have hrec0 := isComposeExitCleanLoop_of_no_dirty rest acc hrest
    by_cases hA : jsStartsWith (js "exited") (jsTrim c.Status) = true
    · rw [hA] at hc
      simp only [Bool.true_and, Bool.not_eq_false'] at hc
      have hcount : cleanExitCount (c :: rest) = cleanExitCount rest + 1 := by
        simp [cleanExitCount, cleanExit, List.filter_cons, hc]
      have hstep : isComposeExitCleanLoop (c :: rest) acc =
          isComposeExitCleanLoop rest (acc + 1) := by
        simp [isComposeExitCleanLoop, hA, hc]
      rw [hstep, hrec1, hcount]
      simp only [Option.some.injEq]
      omega
    · rw [Bool.not_eq_true] at hA
      have hBfalse : jsStartsWith (js "exited (0)") (jsTrim c.Status) =
          false := by
        by_contra hcon
        rw [Bool.not_eq_false] at hcon
        simp [exited_of_cleanExit hcon] at hA
      have hcount : cleanExitCount (c :: rest) = cleanExitCount rest := by
        simp [cleanExitCount, cleanExit, List.filter_cons, hBfalse]
      have hstep : isComposeExitCleanLoop (c :: rest) acc =
          isComposeExitCleanLoop rest acc := by
        simp [isComposeExitCleanLoop, hA]
      rw [hstep, hrec0, hcount]

/-- When some container is a dirty exit, the classification loop
short-circuits to none (the immediate EXITED classification). -/
theorem isComposeExitCleanLoop_of_dirty :
    ∀ (l : List ContainerJson) (acc : Nat),
      (∃ c ∈ l, dirtyExit c = true) →
      isComposeExitCleanLoop l acc = none
  | [], _, h => by simp at h
  | c :: rest, acc, h => by
    rcases h with ⟨x, hx, hdx⟩
    rcases List.mem_cons.mp hx with hx' | hx'
    · subst hx'
      have hdx' : (jsStartsWith (js "exited") (jsTrim x.Status) &&
          !jsStartsWith (js "exited (0)") (jsTrim x.Status)) = true := hdx
      simp only [Bool.and_eq_true, Bool.not_eq_true'] at hdx'
      obtain ⟨hA, hB⟩ := hdx'
      simp [isComposeExitCleanLoop, hA, hB]
    · by_cases hA : jsStartsWith (js "exited") (jsTrim c.Status) = true
      · by_cases hB : jsStartsWith (js "exited (0)") (jsTrim c.Status) = true
        · have hrec := isComposeExitCleanLoop_of_dirty rest (acc + 1)
            ⟨x, hx', hdx⟩
          simp [isComposeExitCleanLoop, hA, hB, hrec]
        · rw [Bool.not_eq_true] at hB
          simp [isComposeExitCleanLoop, hA, hB]
      · rw [Bool.not_eq_true] at hA
        have hrec := isComposeExitCleanLoop_of_dirty rest acc ⟨x, hx', hdx⟩
        simp [isComposeExitCleanLoop, hA, hrec]

/-- C1: for a compose record whose aggregate status contains the word
exited and carries a parenthesized suffix, the classification parses the
expected exited count from that suffix and proceeds as follows: a null
per-container list classifies EXITED conservatively; a container whose
status is a dirty exit forces the EXITED classification; and otherwise the
clean code-0 exits are counted, classifying RUNNING exactly when the count
equals the parsed expectation and EXITED otherwise. -/
theorem c1_exit_reconciliation (st : StackJson)
    (cs : Option (List ContainerJson)) (afterParen : JStr)
    (hexited : jsIncludes (js "exited") st.Status = true)
    (hparen : (jsSplit '(' st.Status)[1]? = some afterParen) :
    isComposeExitClean st none = .ok EXITED ∧
    (∀ l, cs = some l →
      ((∃ c ∈ l, dirtyExit c = true) →
        isComposeExitClean st cs = .ok EXITED) ∧
      ((∀ c ∈ l, dirtyExit c = false) →
        isComposeExitClean st cs =
          .ok (if jsParseInt ((jsSplit ')' afterParen).headD []) =
                some (cleanExitCount l : Int)
              then RUNNING else EXITED))) := by
  constructor
  · simp only [isComposeExitClean, hparen]
  · rintro l rfl
    constructor
    · intro hdirty
      simp only [isComposeExitClean, hparen,
        isComposeExitCleanLoop_of_dirty l 0 hdirty]
    · intro hclean
      simp only [isComposeExitClean, hparen,
        isComposeExitCleanLoop_of_no_dirty l 0 hclean, Nat.zero_add]

/-- Witness for C1 at a concrete aggregate status exited(1) with a single
container that exited cleanly: the stack classifies RUNNING. -/
theorem c1_exit_reconciliation_witness :
    isComposeExitClean ⟨js "ha", js "exited(1)"⟩
      (some [⟨js "exited (0) 2 hours ago"⟩]) = .ok RUNNING := by
  have h := c1_exit_reconciliation ⟨js "ha", js "exited(1)"⟩
    (some [⟨js "exited (0) 2 hours ago"⟩]) (js "1)") (by decide) (by decide)
  have h2 := (h.2 [⟨js "exited (0) 2 hours ago"⟩] rfl).2 (by decide)
  rw [h2, if_pos (by decide)]

/-- C8: environment-file validation rejects exactly the contents that are a
single non-empty line (no newline anywhere) without an equals sign; in
particular any content containing a newline passes. -/
theorem c8_env_validation (s : Stack) :
    ((∃ e, validateEnvFormat s = .error e) ↔
      ('\n' ∉ s.composeENV ∧ s.composeENV ≠ [] ∧ '=' ∉ s.composeENV)) ∧
    ('\n' ∈ s.composeENV → validateEnvFormat s = .ok ()) :=
  ⟨validateEnvFormat_error_iff s,
    fun h => validateEnvFormat_ok_of_newline h⟩

/-- Witness for C8: a single line without an equals sign is rejected, and a
two-line content passes. -/
theorem c8_env_validation_witness :
    (∃ e, validateEnvFormat (mkStack (js "ha") (js "/s") [] (js "abc") []) =
      .error e) ∧
    validateEnvFormat (mkStack (js "ha") (js "/s") [] (js "a\nb") []) =
      .ok () :=
  ⟨(c8_env_validation (mkStack (js "ha") (js "/s") [] (js "abc") [])).1.mpr
      (by decide),
    (c8_env_validation (mkStack (js "ha") (js "/s") [] (js "a\nb") [])).2
      (by decide)⟩

/-- C7 counterexample: with a shared global.env present but no
project-local .env, the argument vector is still augmented, contradicting
the claim that augmentation happens exactly when both files exist. -/
theorem c7_counterexample :
    getComposeOptions true false (js "up") [] =
      [js "compose", js "--env-file", js "../global.env", js "up"] ∧
    getComposeOptions true false (js "up") [] ≠ [js "compose", js "up"] :=
  ⟨rfl, by decide⟩

/-- C7 amended: the vector is unmodified when the shared global.env does
not exist (whatever the local .env does); it gains the global env-file pair
when only global.env exists; and it gains both the local and the global
pairs when both exist. -/
theorem c7_compose_options (localEnvExists : Bool) (command : JStr)
    (extraOptions : List JStr) :
    getComposeOptions false localEnvExists command extraOptions =
      js "compose" :: command :: extraOptions ∧
    getComposeOptions true false command extraOptions =
      js "compose" :: js "--env-file" :: js "../global.env" ::
        command :: extraOptions ∧
    getComposeOptions true true command extraOptions =
      js "compose" :: js "--env-file" :: js "./.env" :: js "--env-file" ::
        js "../global.env" :: command :: extraOptions := by
  refine ⟨?_, rfl, rfl⟩
  cases localEnvExists <;> rfl

/-- C10: artifact filename discovery returns the first accepted filename
that exists in the project directory and falls back to the fixed defaults
compose.yaml and compose.override.yaml when none exists. -/
theorem c10_find_filenames (accepted : List JStr)
    (existsInDir : JStr → Bool) :
    findComposeFileName accepted existsInDir =
      (accepted.find? existsInDir).getD (js "compose.yaml") ∧
    findComposeOverrideFileName accepted existsInDir =
      (accepted.find? existsInDir).getD (js "compose.override.yaml") := by
  constructor
  · induction accepted with
    | nil => rfl
    | cons f rest ih =>
      cases h : existsInDir f with
      | true => simp [findComposeFileName, List.find?, h]
      | false => simp [findComposeFileName, List.find?, h, ih]
  · induction accepted with
    | nil => rfl
    | cons f rest ih =>
      cases h : existsInDir f with
      | true => simp [findComposeOverrideFileName, List.find?, h]
      | false => simp [findComposeOverrideFileName, List.find?, h, ih]

/-- A string starting with the word running cannot also start with the word
created. -/
theorem not_created_of_running {s : JStr}
    (h : jsStartsWith (js "running") s = true) :
    jsStartsWith (js "created") s = false := by
  cases s with
  | nil => exact absurd h (by decide)
  | cons a t =>
    by_contra hcon
    rw [Bool.not_eq_false] at hcon
    have h1 : ('c' :: js "reated").isPrefixOf (a :: t) = true := hcon
    have h2 : ('r' :: js "unning").isPrefixOf (a :: t) = true := h
    simp [List.isPrefixOf] at h1 h2
    exact absurd (h1.1.trans h2.1.symm) (by decide)

/-- C2 counterexample: the aggregate status running(3), exited(1) begins
with running, yet statusConvert classifies it through the exited
reconciliation, here EXITED (null container list), not RUNNING. -/
theorem c2_counterexample :
    jsStartsWith (js "running") (js "running(3), exited(1)") = true ∧
    statusConvert ⟨js "web", js "running(3), exited(1)"⟩ none =
      .ok EXITED ∧
    (Except.ok EXITED : Except JsError Nat) ≠ .ok RUNNING := by
  refine ⟨by decide, rfl, ?_⟩
  intro hcon
  injection hcon with hval
  exact absurd hval (by decide)

/-- C2 amended: statusConvert sends a status beginning with created to
CREATED_STACK; a status beginning with running and not containing the word
exited to RUNNING regardless of container details; and a status matching
none of the created, exited or running shapes to UNKNOWN. -/
theorem c2_status_convert (st : StackJson)
    (cs : Option (List ContainerJson)) :
    (jsStartsWith (js "created") st.Status = true →
      statusConvert st cs = .ok CREATED_STACK) ∧
    (jsStartsWith (js "running") st.Status = true →
      jsIncludes (js "exited") st.Status = false →
      statusConvert st cs = .ok RUNNING) ∧
    (jsStartsWith (js "created") st.Status = false →
      jsIncludes (js "exited") st.Status = false →
      jsStartsWith (js "running") st.Status = false →
      statusConvert st cs = .ok UNKNOWN) := by
  refine ⟨?_, ?_, ?_⟩
  · intro hc
    simp [statusConvert, hc]
  · intro hr hx
    have hc := not_created_of_running hr
    simp [statusConvert, hc, hx, hr]
  · intro hc hx hr
    simp [statusConvert, hc, hx, hr]

/-- Witness for C2 at the plain running status. -/
theorem c2_status_convert_witness :
    statusConvert ⟨js "web", js "running"⟩ none = .ok RUNNING :=
  (c2_status_convert ⟨js "web", js "running"⟩ none).2.1 (by decide)
    (by decide)

/-- C3 counterexample: at exit code 1 deploy fails with the command-failure
message built from the action description deploy; the message does not
contain the session (terminal) name. -/
theorem c3_counterexample :
    (deploy (mkStack (js "web") (js "/opt/stacks") [] [] []) (js "") false
      false 1).2 = .error (getErrorMessage (js "deploy")) ∧
    jsIncludes (getComposeTerminalName (js "") (js "web"))
      (getErrorMessage (js "deploy")) = false :=
  ⟨rfl, by decide⟩

/-- C3 amended: deploy with endpoint empty and no shared environment file
invokes docker with argument vector compose up -d remove-orphans, working
directory the project path, under the deterministic compose session name;
exit code 0 resolves to 0, and exit code 1 raises the command-failure error
whose message names the deploy action and points at the terminal output
(the session name itself is not part of the message). -/
theorem c3_deploy (s : Stack) (localEnvExists : Bool) (exitCode : Nat) :
    (deploy s (js "") false localEnvExists exitCode).1.command =
      js "docker" ∧
    (deploy s (js "") false localEnvExists exitCode).1.args =
      [js "compose", js "up", js "-d", js "--remove-orphans"] ∧
    (deploy s (js "") false localEnvExists exitCode).1.cwd = s.path ∧
    (deploy s (js "") false localEnvExists exitCode).1.terminalName =
      getComposeTerminalName (js "") s.name ∧
    (exitCode = 0 →
      (deploy s (js "") false localEnvExists exitCode).2 = .ok 0) ∧
    (exitCode = 1 →
      (deploy s (js "") false localEnvExists exitCode).2 =
        .error (getErrorMessage (js "deploy"))) := by
  refine ⟨rfl, rfl, rfl, rfl, ?_, ?_⟩
  · rintro rfl
    rfl
  · rintro rfl
    rfl

/-- Witness for C3 at a concrete stack and exit code 0. -/
theorem c3_deploy_witness :
    (deploy (mkStack (js "web") (js "/opt/stacks") [] [] []) (js "") false
      true 0).2 = .ok 0 :=
  (c3_deploy (mkStack (js "web") (js "/opt/stacks") [] [] []) true
    0).2.2.2.2.1 rfl

/-- C4 counterexample: when the pull step exits 1, update raises the
command-failure error for the pull step; the numeric exit code 1 is not
what the caller receives. -/
theorem c4_counterexample :
    (update (mkStack (js "web") (js "/opt/stacks") [] [] []) (js "") false
      false 1 RUNNING 0 0).2 = .error (getErrorMessage (js "pull")) ∧
    (update (mkStack (js "web") (js "/opt/stacks") [] [] []) (js "") false
      false 1 RUNNING 0 0).2 ≠ .ok 1 := by
  refine ⟨rfl, ?_⟩
  intro hcon
  rw [show (update (mkStack (js "web") (js "/opt/stacks") [] [] []) (js "")
      false false 1 RUNNING 0 0).2 =
      .error (getErrorMessage (js "pull")) from rfl] at hcon
  exact Except.noConfusion hcon

/-- C4 amended: update is the three-step sequence pull, then, only when the
refreshed status is RUNNING, recreate and prune; a failing step raises the
command-failure error for that step while the trace keeps every completed
step (no rollback), and on success update returns 0. -/
theorem c4_update (s : Stack) (endpoint : JStr)
    (globalEnvExists localEnvExists : Bool)
    (pullExitCode refreshedStatus upExitCode pruneExitCode : Nat) :
    (pullExitCode ≠ 0 →
      update s endpoint globalEnvExists localEnvExists pullExitCode
          refreshedStatus upExitCode pruneExitCode =
        ([(runComposeCommand s endpoint globalEnvExists localEnvExists
            (js "pull") [] (js "pull") pullExitCode).1],
          .error (getErrorMessage (js "pull")))) ∧
    (pullExitCode = 0 → refreshedStatus ≠ RUNNING →
      update s endpoint globalEnvExists localEnvExists pullExitCode
          refreshedStatus upExitCode pruneExitCode =
        ([(runComposeCommand s endpoint globalEnvExists localEnvExists
            (js "pull") [] (js "pull") pullExitCode).1], .ok 0)) ∧
    (pullExitCode = 0 → refreshedStatus = RUNNING → upExitCode ≠ 0 →
      update s endpoint globalEnvExists localEnvExists pullExitCode
          refreshedStatus upExitCode pruneExitCode =
        ([(runComposeCommand s endpoint globalEnvExists localEnvExists
            (js "pull") [] (js "pull") pullExitCode).1,
          (runComposeCommand s endpoint globalEnvExists localEnvExists
            (js "up") [js "-d", js "--remove-orphans"] (js "restart")
            upExitCode).1],
          .error (getErrorMessage (js "restart")))) ∧
    (pullExitCode = 0 → refreshedStatus = RUNNING → upExitCode = 0 →
      pruneExitCode ≠ 0 →
      update s endpoint globalEnvExists localEnvExists pullExitCode
          refreshedStatus upExitCode pruneExitCode =
        ([(runComposeCommand s endpoint globalEnvExists localEnvExists
            (js "pull") [] (js "pull") pullExitCode).1,
          (runComposeCommand s endpoint globalEnvExists localEnvExists
            (js "up") [js "-d", js "--remove-orphans"] (js "restart")
            upExitCode).1,
          (runTerminalExec s endpoint (js "docker")
            [js "image", js "prune", js "--all", js "--force"]
            (js "prune images") pruneExitCode).1],
          .error (getErrorMessage (js "prune images")))) ∧
    (pullExitCode = 0 → refreshedStatus = RUNNING → upExitCode = 0 →
      pruneExitCode = 0 →
      update s endpoint globalEnvExists localEnvExists pullExitCode
          refreshedStatus upExitCode pruneExitCode =
        ([(runComposeCommand s endpoint globalEnvExists localEnvExists
            (js "pull") [] (js "pull") pullExitCode).1,
          (runComposeCommand s endpoint globalEnvExists localEnvExists
            (js "up") [js "-d", js "--remove-orphans"] (js "restart")
            upExitCode).1,
          (runTerminalExec s endpoint (js "docker")
            [js "image", js "prune", js "--all", js "--force"]
            (js "prune images") pruneExitCode).1], .ok 0)) := by
  refine ⟨?_, ?_, ?_, ?_, ?_⟩
  · intro hpe
    simp [update, runComposeCommand, runTerminalExec, hpe]
  · rintro rfl hrs
    simp [update, runComposeCommand, runTerminalExec, hrs]
  · rintro rfl rfl hue
    simp [update, runComposeCommand, runTerminalExec, hue]
  · rintro rfl rfl rfl hpr
    simp [update, runComposeCommand, runTerminalExec, hpr]
  · rintro rfl rfl rfl rfl
    simp [update, runComposeCommand, runTerminalExec]

/-- Witness for C4: pull succeeds and the stack is not running, so update
stops after the pull step with result 0. -/
theorem c4_update_witness :
    update (mkStack (js "web") (js "/opt/stacks") [] [] []) (js "") false
      false 0 UNKNOWN 5 7 =
    ([(runComposeCommand (mkStack (js "web") (js "/opt/stacks") [] [] [])
        (js "") false false (js "pull") [] (js "pull") 0).1], .ok 0) :=
  (c4_update (mkStack (js "web") (js "/opt/stacks") [] [] []) (js "") false
    false 0 UNKNOWN 5 7).2.1 rfl (by decide)

/-- C5 counterexample: with the deleteStackFiles option unset, a successful
delete does not remove the stack directory, contradicting the claim that
delete always removes it after a successful down. -/
theorem c5_counterexample :
    (Stack.del (mkStack (js "web") (js "/opt/stacks") [] [] []) (js "")
      false false false 0).2 = .ok 0 ∧
    Action.rm (mkStack (js "web") (js "/opt/stacks") [] [] []).path ∉
      (Stack.del (mkStack (js "web") (js "/opt/stacks") [] [] []) (js "")
        false false false 0).1 :=
  ⟨rfl, by decide⟩

/-- C5 amended: on a non-zero exit both delete and forceDelete raise the
command-failure error and leave the directory in place (no removal action);
on exit 0, delete removes the directory exactly when the deleteStackFiles
option is set, with the removal strictly after the down command, and
forceDelete always removes it after the command. -/
theorem c5_delete_force_delete (s : Stack) (endpoint : JStr)
    (globalEnvExists localEnvExists : Bool) (exitCode : Nat) :
    (exitCode ≠ 0 → ∀ deleteStackFiles,
      Stack.del s endpoint globalEnvExists localEnvExists deleteStackFiles
          exitCode =
        ([.exec (runComposeCommand s endpoint globalEnvExists localEnvExists
            (js "down") [js "--remove-orphans"] (js "delete " ++ s.name)
            exitCode).1],
          .error (getErrorMessage (js "delete " ++ s.name)))) ∧
    (exitCode ≠ 0 →
      forceDelete s endpoint globalEnvExists localEnvExists exitCode =
        ([.exec ⟨getComposeTerminalName endpoint s.name, js "docker",
            getComposeOptions globalEnvExists localEnvExists (js "down")
              [js "-v", js "--remove-orphans"], s.path⟩],
          .error (getErrorMessage (js "force delete " ++ s.name)))) ∧
    (exitCode = 0 →
      Stack.del s endpoint globalEnvExists localEnvExists true exitCode =
        ([.exec (runComposeCommand s endpoint globalEnvExists localEnvExists
            (js "down") [js "--remove-orphans"] (js "delete " ++ s.name)
            exitCode).1, .rm s.path], .ok 0)) ∧
    (exitCode = 0 →
      Stack.del s endpoint globalEnvExists localEnvExists false exitCode =
        ([.exec (runComposeCommand s endpoint globalEnvExists localEnvExists
            (js "down") [js "--remove-orphans"] (js "delete " ++ s.name)
            exitCode).1], .ok 0)) ∧
    (exitCode = 0 →
      forceDelete s endpoint globalEnvExists localEnvExists exitCode =
        ([.exec ⟨getComposeTerminalName endpoint s.name, js "docker",
            getComposeOptions globalEnvExists localEnvExists (js "down")
              [js "-v", js "--remove-orphans"], s.path⟩, .rm s.path],
          .ok 0)) := by
  refine ⟨?_, ?_, ?_, ?_, ?_⟩
  · intro he dsf
    simp [Stack.del, runComposeCommand, runTerminalExec, he]
  · intro he
    simp [forceDelete, he]
  · rintro rfl
    simp [Stack.del, runComposeCommand, runTerminalExec]
  · rintro rfl
    simp [Stack.del, runComposeCommand, runTerminalExec]
  · rintro rfl
    simp [forceDelete]

/-- Witness for C5: a successful delete with the deleteStackFiles option
set performs the down command and then the directory removal. -/
theorem c5_delete_force_delete_witness :
    Stack.del (mkStack (js "web") (js "/opt/stacks") [] [] []) (js "")
      false false true 0 =
    ([.exec (runComposeCommand (mkStack (js "web") (js "/opt/stacks") []
        [] []) (js "") false false (js "down") [js "--remove-orphans"]
        (js "delete " ++ (mkStack (js "web") (js "/opt/stacks") [] []
          []).name) 0).1,
      .rm (mkStack (js "web") (js "/opt/stacks") [] [] []).path], .ok 0) :=
  (c5_delete_force_delete (mkStack (js "web") (js "/opt/stacks") [] [] [])
    (js "") false false 0).2.2.1 rfl

/-- A bad character or emptiness makes the name fail the pattern. -/
theorem nameMatchesPattern_eq_false_of_bad {name : JStr}
    (h : (∃ c ∈ name, isStackNameChar c = false) ∨ name = []) :
    nameMatchesPattern name = false := by
  rcases h with ⟨c, hc, hbad⟩ | rfl
  · have hall : name.all isStackNameChar = false :=
      List.all_eq_false.mpr ⟨c, hc, by simp [hbad]⟩
    simp [nameMatchesPattern, hall]
  · rfl

/-- With a failed validation the save path performs no action at all. -/
theorem save_of_validate_error {s : Stack} {parseOk : JStr → Bool}
    {e : StackError} (h : validate s parseOk = .error e)
    (isAdd dirExists envFileExists overrideFileExists : Bool) :
    save s parseOk isAdd dirExists envFileExists overrideFileExists =
      ([], .error e) := by
  simp [save, h]

/-- Each malformedness condition makes validate fail. -/
theorem validate_error_of_malformed {s : Stack} {parseOk : JStr → Bool}
    (h : (∃ c ∈ s.name, isStackNameChar c = false) ∨ s.name = [] ∨
      parseOk s.composeYAML = false ∨
      (jsTrim s.composeOverrideYAML ≠ [] ∧
        parseOk s.composeOverrideYAML = false) ∨
      ('\n' ∉ s.composeENV ∧ s.composeENV ≠ [] ∧ '=' ∉ s.composeENV)) :
    ∃ e, validate s parseOk = .error e := by
  by_cases hname : nameMatchesPattern s.name = false
  · exact ⟨.validationError
      (js "Stack name can only contain [a-z][0-9] _ - only"),
      by simp [validate, hname]⟩
  · by_cases hyaml : parseOk s.composeYAML = false
    · exact ⟨.yamlParseError, by simp [validate, hname, hyaml]⟩
    · by_cases hov : jsTrim s.composeOverrideYAML ≠ [] ∧
          parseOk s.composeOverrideYAML = false
      · exact ⟨.yamlParseError, by simp [validate, hname, hyaml, hov]⟩
      · have hval : validate s parseOk = validateEnvFormat s := by
          simp [validate, hname, hyaml, hov]
        rcases h with h1 | h2 | h3 | h4 | h5
        · exact absurd (nameMatchesPattern_eq_false_of_bad (Or.inl h1))
            hname
        · exact absurd (nameMatchesPattern_eq_false_of_bad (Or.inr h2))
            hname
        · exact absurd h3 hyaml
        · exact absurd h4 hov
        · obtain ⟨e, he⟩ := (validateEnvFormat_error_iff s).mpr h5
          exact ⟨e, hval.trans he⟩

/-- C6: a malformed project name (a character outside the allowed class or
emptiness), a primary or applicable override definition the yaml parser
rejects, or a malformed environment-file shape makes save fail before any
disk action: the action trace is empty, so no file is written and no
project directory is created. -/
theorem c6_save_validation (s : Stack) (parseOk : JStr → Bool)
    (isAdd dirExists envFileExists overrideFileExists : Bool)
    (h : (∃ c ∈ s.name, isStackNameChar c = false) ∨ s.name = [] ∨
      parseOk s.composeYAML = false ∨
      (jsTrim s.composeOverrideYAML ≠ [] ∧
        parseOk s.composeOverrideYAML = false) ∨
      ('\n' ∉ s.composeENV ∧ s.composeENV ≠ [] ∧ '=' ∉ s.composeENV)) :
    ∃ e, save s parseOk isAdd dirExists envFileExists overrideFileExists =
      ([], .error e) := by
  obtain ⟨e, he⟩ := validate_error_of_malformed h
  exact ⟨e, save_of_validate_error he isAdd dirExists envFileExists
    overrideFileExists⟩

/-- Witness for C6: a name with an uppercase character makes save fail with
an empty action trace. -/
theorem c6_save_validation_witness :
    ∃ e, save (mkStack (js "Web") (js "/s") [] [] []) (fun _ => true) true
      false false false = ([], .error e) :=
  c6_save_validation (mkStack (js "Web") (js "/s") [] [] []) (fun _ => true)
    true false false false (Or.inl ⟨'W', by decide, by decide⟩)

/-- The cache lookup after a cache insertion finds the inserted value. -/
theorem cacheGet_cacheSet (c : Cache) (k : String) (v : JStr) :
    cacheGet (cacheSet c k v) k = some v := by
  simp [cacheGet, cacheSet, List.find?]

/-- C9: the artifact-content accessor is total (it never raises): a failed
read on an uncached key yields the default, a cached key always wins, a
repeated access returns exactly what the first access returned whatever the
second read would say, and writing the stack files clears the cache. -/
theorem c9_file_cache (c : Cache) (k : String) (v d : JStr)
    (r r1 r2 : Option JStr) (s : Stack)
    (envFileExists overrideFileExists : Bool) :
    (getFileContent [] k none d).1 = d ∧
    (getFileContent (cacheSet c k v) k r d).1 = v ∧
    (getFileContent (getFileContent c k r1 d).2 k r2 d).1 =
      (getFileContent c k r1 d).1 ∧
    (writeStackFiles s c envFileExists overrideFileExists).2 = [] := by
  refine ⟨?_, ?_, ?_, rfl⟩
  · simp [getFileContent, cacheGet, List.find?]
  · simp [getFileContent, cacheGet_cacheSet]
  · rcases hc : cacheGet c k with _ | w
    · have h1 : getFileContent c k r1 d = (r1.getD d, cacheSet c k
        (r1.getD d)) := by
        simp [getFileContent, hc]
      rw [h1]
      simp [getFileContent, cacheGet_cacheSet]
    · have h1 : getFileContent c k r1 d = (w, c) := by
        simp [getFileContent, hc]
      rw [h1]
      simp [getFileContent, hc]

/-- Witness for C7: without a shared global.env the vector stays as built
from the command and the extra options. -/
theorem c7_compose_options_witness :
    getComposeOptions false true (js "up") [js "-d"] =
      [js "compose", js "up", js "-d"] :=
  (c7_compose_options true (js "up") [js "-d"]).1

/-- Witness for C9: an uncached failed read yields the empty default. -/
theorem c9_file_cache_witness :
    (getFileContent [] "compose" none (js "")).1 = js "" :=
  (c9_file_cache [] "compose" [] (js "") none none none
    (mkStack (js "a") (js "/s") [] [] []) false false).1

/-- Witness for C10: the first accepted filename that exists is returned. -/
theorem c10_find_filenames_witness :
    findComposeFileName [js "compose.yaml", js "docker-compose.yml"]
      (fun f => decide (f = js "docker-compose.yml")) =
      js "docker-compose.yml" := by
  rw [(c10_find_filenames [js "compose.yaml", js "docker-compose.yml"]
    (fun f => decide (f = js "docker-compose.yml"))).1]
  rfl

end Dockge
